import Mathlib

/-
Verification of the oppgaave task/event manager core against its
natural-language specification.

The Go source is shallowly embedded:
  * `models.Task`, `models.DailyBudget` and the calendar `Event` become Lean
    structures with the same fields (fields irrelevant to every verified
    property, such as contact/attachment lists, are omitted).
  * Go `time.Time` values are embedded as `Int` minutes on an absolute
    timeline (minutes since the Go zero time, January 1 of year 1, in a
    fixed-offset location, so one calendar day is always 1440 minutes and
    `time.Time.IsZero` is `t = 0`).  `*time.Time` becomes `Option Int`.
  * Go float64 arithmetic in `CalculateMoneyCost` is idealised as exact
    rational arithmetic (`ℚ`); the conversion `int(x)` is truncation toward
    zero, embedded by `goTrunc`.
  * The SQLite-backed store becomes a `TaskStore` structure holding the task
    rows and the AUTOINCREMENT counter; SQL driver failures are out of scope,
    so operations whose only error paths are driver failures are total.
  * `Calendar`'s `map[string]*Event` becomes a list of events keyed by `id`;
    map iteration order is irrelevant to every property proved here.
-/

namespace Oppgaave

/-! ## Task data model (internal/models, src/unnamed/part_008 and part_009) -/

/-- TaskStatus is a Go string type; the four enum constants follow. -/
abbrev TaskStatus := String

def StatusPending : TaskStatus := "pending"

def StatusInProgress : TaskStatus := "in_progress"

def StatusDone : TaskStatus := "done"

def StatusBlocked : TaskStatus := "blocked"

/-- Task mirrors `models.Task`.  `Prerequisites []Task` makes the Go struct
recursive, hence the nested `List Task` field.  Contact/attachment/radar
fields that no verified property reads are omitted. -/
structure Task where
  id : Int
  title : String
  description : String
  parentId : Option Int
  estimatedDurationMins : Int
  deadline : Option Int
  priority : Int
  status : TaskStatus
  tags : List String
  energyLevel : Int
  difficulty : Int
  moneyCost : Int
  createdAt : Int
  updatedAt : Int
  completedAt : Option Int
  prerequisites : List Task

/-- CreateTaskRequest mirrors `models.CreateTaskRequest`. -/
structure CreateTaskRequest where
  title : String
  description : String
  parentId : Option Int
  estimatedDurationMins : Int
  deadline : Option Int
  priority : Int
  tags : List String
  energyLevel : Int
  difficulty : Int
deriving Repr, DecidableEq

/-- goTrunc embeds Go's float-to-int conversion `int(x)`: truncation toward
zero. -/
def goTrunc (q : ℚ) : Int :=
  if 0 ≤ q then ⌊q⌋ else ⌈q⌉

/-- energyMultiplier embeds the first `switch` of `Task.CalculateMoneyCost`:
the multiplier starts at 1.0 and is replaced for ordinals 1, 2, 3. -/
def energyMultiplier (energyLevel : Int) : ℚ :=
  if energyLevel = 1 then 8/10
  else if energyLevel = 2 then 1
  else if energyLevel = 3 then 15/10
  else 1

/-- difficultyMultiplier embeds the second `switch` of
`Task.CalculateMoneyCost`. -/
def difficultyMultiplier (difficulty : Int) : ℚ :=
  if difficulty = 1 then 9/10
  else if difficulty = 2 then 1
  else if difficulty = 3 then 13/10
  else 1

/-- priorityMultiplier embeds the third `switch` of
`Task.CalculateMoneyCost`. -/
def priorityMultiplier (priority : Int) : ℚ :=
  if priority = 1 then 8/10
  else if priority = 2 then 1
  else if priority = 3 then 12/10
  else 1

/-- CalculateMoneyCost embeds `Task.CalculateMoneyCost` (identical in
part_008 and part_009): `int(float64(baseCost) * energyMultiplier *
difficultyMultiplier * priorityMultiplier)`, with float64 arithmetic
idealised as exact rational arithmetic. -/
def Task.CalculateMoneyCost (t : Task) : Int :=
  goTrunc ((t.estimatedDurationMins : ℚ) * energyMultiplier t.energyLevel
    * difficultyMultiplier t.difficulty * priorityMultiplier t.priority)

/-- specEnergyFactor restates the spec wording of the energy factor table
(for the refinement statement of C1); outside ordinals 1-3 the spec names a
1.0 default. -/
def specEnergyFactor (energyLevel : Int) : ℚ :=
  if energyLevel = 1 then 8/10
  else if energyLevel = 2 then 1
  else if energyLevel = 3 then 15/10
  else 1

/-- specDifficultyFactor restates the spec wording of the difficulty factor
table. -/
def specDifficultyFactor (difficulty : Int) : ℚ :=
  if difficulty = 1 then 9/10
  else if difficulty = 2 then 1
  else if difficulty = 3 then 13/10
  else 1

/-- specPriorityFactor restates the spec wording of the priority factor
table. -/
def specPriorityFactor (priority : Int) : ℚ :=
  if priority = 1 then 8/10
  else if priority = 2 then 1
  else if priority = 3 then 12/10
  else 1

/-- mkTask builds a task with the given scoring attributes and defaults
elsewhere; a convenience for concrete instances. -/
def mkTask (durationMins energy difficulty priority : Int) : Task :=
  { id := 1, title := "t", description := "", parentId := none,
    estimatedDurationMins := durationMins, deadline := none,
    priority := priority, status := StatusPending, tags := [],
    energyLevel := energy, difficulty := difficulty, moneyCost := 0,
    createdAt := 0, updatedAt := 0, completedAt := none,
    prerequisites := [] }

lemma energyMultiplier_pos (e : Int) : 0 < energyMultiplier e := by
  unfold energyMultiplier; split_ifs <;> norm_num

lemma difficultyMultiplier_pos (d : Int) : 0 < difficultyMultiplier d := by
  unfold difficultyMultiplier; split_ifs <;> norm_num

lemma priorityMultiplier_pos (p : Int) : 0 < priorityMultiplier p := by
  unfold priorityMultiplier; split_ifs <;> norm_num

/-- Claim C1: for every task with estimated duration d ≥ 0,
`CalculateMoneyCost` returns the floor of d times the energy, difficulty and
priority factors of the spec table (0.8/1.0/1.5, 0.9/1.0/1.3, 0.8/1.0/1.2 on
ordinals 1/2/3, default 1.0 outside); in particular cost(60,2,2,2) = 60 and
cost(60,3,3,3) = 140. -/
theorem C1_cost_model_floor :
    (∀ t : Task, 0 ≤ t.estimatedDurationMins →
      t.CalculateMoneyCost =
        ⌊(t.estimatedDurationMins : ℚ) * specEnergyFactor t.energyLevel
          * specDifficultyFactor t.difficulty * specPriorityFactor t.priority⌋)
    ∧ (mkTask 60 2 2 2).CalculateMoneyCost = 60
    ∧ (mkTask 60 3 3 3).CalculateMoneyCost = 140
    ∧ (∀ e : Int, e ∉ ({1, 2, 3} : Finset Int) → energyMultiplier e = 1)
    ∧ (∀ d : Int, d ∉ ({1, 2, 3} : Finset Int) → difficultyMultiplier d = 1)
    ∧ (∀ p : Int, p ∉ ({1, 2, 3} : Finset Int) → priorityMultiplier p = 1) := by
  refine ⟨?_, ?_, ?_, ?_, ?_, ?_⟩
  · intro t hd
    have hq : (0 : ℚ) ≤ (t.estimatedDurationMins : ℚ) := by exact_mod_cast hd
    have hnn : (0 : ℚ) ≤ (t.estimatedDurationMins : ℚ)
        * energyMultiplier t.energyLevel * difficultyMultiplier t.difficulty
        * priorityMultiplier t.priority := by
      have h1 := (energyMultiplier_pos t.energyLevel).le
      have h2 := (difficultyMultiplier_pos t.difficulty).le
      have h3 := (priorityMultiplier_pos t.priority).le
      exact mul_nonneg (mul_nonneg (mul_nonneg hq h1) h2) h3
    show goTrunc _ = _
    rw [goTrunc, if_pos hnn]
    rfl
  · norm_num [Task.CalculateMoneyCost, mkTask, goTrunc, energyMultiplier,
      difficultyMultiplier, priorityMultiplier]
  · norm_num [Task.CalculateMoneyCost, mkTask, goTrunc, energyMultiplier,
      difficultyMultiplier, priorityMultiplier]
  · intro e he
    simp only [Finset.mem_insert, Finset.mem_singleton, not_or] at he
    simp [energyMultiplier, he.1, he.2.1, he.2.2]
  · intro d hd
    simp only [Finset.mem_insert, Finset.mem_singleton, not_or] at hd
    simp [difficultyMultiplier, hd.1, hd.2.1, hd.2.2]
  · intro p hp
    simp only [Finset.mem_insert, Finset.mem_singleton, not_or] at hp
    simp [priorityMultiplier, hp.1, hp.2.1, hp.2.2]

/-- Witness for C1 at concrete inputs. -/
theorem C1_cost_model_floor_witness :
    ((mkTask 45 1 3 2).CalculateMoneyCost =
      ⌊(45 : ℚ) * specEnergyFactor 1 * specDifficultyFactor 3
        * specPriorityFactor 2⌋)
    ∧ energyMultiplier 7 = 1 ∧ difficultyMultiplier 0 = 1
    ∧ priorityMultiplier (-2) = 1 :=
  ⟨C1_cost_model_floor.1 (mkTask 45 1 3 2) (by norm_num [mkTask]),
   C1_cost_model_floor.2.2.2.1 7 (by decide),
   C1_cost_model_floor.2.2.2.2.1 0 (by decide),
   C1_cost_model_floor.2.2.2.2.2 (-2) (by decide)⟩

/-! ## Blocked-state derivation (`Task.IsBlocked`) -/

/-- IsBlocked embeds `Task.IsBlocked` (identical in part_008 and part_009):
scan the loaded prerequisites and report true on the first one whose status
is not done. -/
def Task.IsBlocked (t : Task) : Bool :=
  t.prerequisites.any (fun prereq => prereq.status ≠ StatusDone)

/-- Claim C9: `IsBlocked` is true iff some prerequisite's stored status is
not Done; a task with zero prerequisites is never blocked; the task's own
stored status is neither read nor written, so a task whose own status is
Blocked with all prerequisites Done is not derived-blocked. -/
theorem C9_isBlocked_prerequisites_only :
    (∀ t : Task,
      t.IsBlocked = true ↔ ∃ p ∈ t.prerequisites, p.status ≠ StatusDone)
    ∧ (∀ t : Task, t.prerequisites = [] → t.IsBlocked = false)
    ∧ (∀ t : Task, ∀ s : TaskStatus,
        Task.IsBlocked { t with status := s } = t.IsBlocked)
    ∧ (∀ t : Task, (∀ p ∈ t.prerequisites, p.status = StatusDone) →
        Task.IsBlocked { t with status := StatusBlocked } = false) := by
  refine ⟨?_, ?_, ?_, ?_⟩
  · intro t
    simp [Task.IsBlocked, List.any_eq_true]
  · intro t h
    simp [Task.IsBlocked, h]
  · intro t s
    rfl
  · intro t h
    simp only [Task.IsBlocked, List.any_eq_false, decide_not]
    intro p hp
    simp [h p hp]

/-- Witness for C9 at a concrete task. -/
theorem C9_isBlocked_prerequisites_only_witness :
    Task.IsBlocked (mkTask 30 2 2 2) = false
    ∧ Task.IsBlocked
        { mkTask 30 2 2 2 with
            status := StatusBlocked,
            prerequisites := [{ mkTask 10 1 1 1 with status := StatusDone }] }
      = false :=
  ⟨C9_isBlocked_prerequisites_only.2.1 (mkTask 30 2 2 2) rfl,
   C9_isBlocked_prerequisites_only.2.2.2
     { mkTask 30 2 2 2 with
         prerequisites := [{ mkTask 10 1 1 1 with status := StatusDone }] }
     (by intro p hp; simp at hp; simp [hp])⟩

/-! ## Daily budget (models.DailyBudget, handlers.Dashboard and
handlers.GetBudgetWidget) -/

/-- DailyBudget mirrors `models.DailyBudget`. -/
structure DailyBudget where
  id : Int
  date : Int
  totalBudgetCoins : Int
  spentCoins : Int
  createdAt : Int
  updatedAt : Int
deriving Repr, DecidableEq

/-- RemainingCoins embeds `DailyBudget.RemainingCoins`. -/
def DailyBudget.RemainingCoins (db : DailyBudget) : Int :=
  db.totalBudgetCoins - db.spentCoins

/-- spentCoinsFromTasks embeds the accumulation loop that both
`Handlers.Dashboard` and `Handlers.GetBudgetWidget` run over the result of
`GetAllTasks`: start at 0 and add `task.MoneyCost` for every task whose
status is pending or in_progress. -/
def spentCoinsFromTasks (tasks : List Task) : Int :=
  tasks.foldl
    (fun spentCoins task =>
      if task.status = StatusPending ∨ task.status = StatusInProgress
      then spentCoins + task.moneyCost
      else spentCoins) 0

/-- GetBudgetWidget embeds the budget value `Handlers.GetBudgetWidget` hands
to the template: the stored budget row with `SpentCoins` overwritten by the
recomputed sum. -/
def GetBudgetWidget (budget : DailyBudget) (tasks : List Task) : DailyBudget :=
  { budget with spentCoins := spentCoinsFromTasks tasks }

/-- dashboardBudget embeds the budget value `Handlers.Dashboard` hands to the
template; its spent-coins loop is the same accumulation. -/
def dashboardBudget (budget : DailyBudget) (tasks : List Task) : DailyBudget :=
  { budget with spentCoins := spentCoinsFromTasks tasks }

lemma foldl_spent_eq (tasks : List Task) : ∀ acc : Int,
    tasks.foldl
      (fun spentCoins task =>
        if task.status = StatusPending ∨ task.status = StatusInProgress
        then spentCoins + task.moneyCost
        else spentCoins) acc
    = acc + ((tasks.filter (fun t =>
        t.status = StatusPending ∨ t.status = StatusInProgress)).map
          Task.moneyCost).sum := by
  induction tasks with
  | nil => intro acc; simp
  | cons t ts ih =>
    intro acc
    by_cases h : t.status = StatusPending ∨ t.status = StatusInProgress
    · rw [List.foldl_cons, if_pos h, ih]
      simp [List.filter_cons, h]
      ring
    · rw [List.foldl_cons, if_neg h, ih]
      simp [List.filter_cons, h]

lemma spentCoinsFromTasks_eq (tasks : List Task) :
    spentCoinsFromTasks tasks
    = ((tasks.filter (fun t =>
        t.status = StatusPending ∨ t.status = StatusInProgress)).map
          Task.moneyCost).sum := by
  rw [spentCoinsFromTasks, foldl_spent_eq]
  ring

/-- Claim C8: on both budget read paths the displayed spent value is the sum
of moneyCost over tasks with status pending or in_progress, remaining is
total minus that sum, Done/Blocked tasks contribute nothing, and the stored
spent_coins value is never used for display. -/
theorem C8_budget_spent_recomputed :
    (∀ (b : DailyBudget) (tasks : List Task),
      (GetBudgetWidget b tasks).spentCoins
        = ((tasks.filter (fun t =>
            t.status = StatusPending ∨ t.status = StatusInProgress)).map
              Task.moneyCost).sum)
    ∧ (∀ (b : DailyBudget) (tasks : List Task),
        (GetBudgetWidget b tasks).RemainingCoins
          = b.totalBudgetCoins
            - ((tasks.filter (fun t =>
                t.status = StatusPending ∨ t.status = StatusInProgress)).map
                  Task.moneyCost).sum)
    ∧ (∀ (b : DailyBudget) (tasks : List Task) (s : Int),
        GetBudgetWidget { b with spentCoins := s } tasks
          = GetBudgetWidget b tasks)
    ∧ (∀ (b : DailyBudget) (t : Task) (tasks : List Task),
        t.status = StatusDone ∨ t.status = StatusBlocked →
        GetBudgetWidget b (t :: tasks) = GetBudgetWidget b tasks)
    ∧ (∀ (b : DailyBudget) (tasks : List Task),
        dashboardBudget b tasks = GetBudgetWidget b tasks) := by
  refine ⟨?_, ?_, ?_, ?_, ?_⟩
  · intro b tasks
    exact spentCoinsFromTasks_eq tasks
  · intro b tasks
    show _ - _ = _
    rw [show (GetBudgetWidget b tasks).totalBudgetCoins = b.totalBudgetCoins
      from rfl]
    rw [show (GetBudgetWidget b tasks).spentCoins = spentCoinsFromTasks tasks
      from rfl]
    rw [spentCoinsFromTasks_eq]
  · intro b tasks s
    rfl
  · intro b t tasks h
    have hne : ¬ (t.status = StatusPending ∨ t.status = StatusInProgress) := by
      rcases h with h | h <;> rw [h] <;> decide
    simp only [GetBudgetWidget, spentCoinsFromTasks, List.foldl_cons,
      if_neg hne]
  · intro b tasks
    rfl

/-- Witness for C8 at a concrete budget and task list. -/
theorem C8_budget_spent_recomputed_witness :
    GetBudgetWidget
        { id := 1, date := 0, totalBudgetCoins := 500, spentCoins := 7,
          createdAt := 0, updatedAt := 0 }
        ({ mkTask 10 2 2 2 with status := StatusDone, moneyCost := 500 }
          :: [])
      = GetBudgetWidget
          { id := 1, date := 0, totalBudgetCoins := 500, spentCoins := 7,
            createdAt := 0, updatedAt := 0 } [] :=
  C8_budget_spent_recomputed.2.2.2.1
    { id := 1, date := 0, totalBudgetCoins := 500, spentCoins := 7,
      createdAt := 0, updatedAt := 0 }
    { mkTask 10 2 2 2 with status := StatusDone, moneyCost := 500 }
    [] (Or.inl rfl)

/-! ## Task store (internal/database: src/unnamed/part_005, part_006,
part_007).  The SQLite table becomes the row list `tasks` (in rowid order)
plus the AUTOINCREMENT counter `nextId`.  SQL driver failures are the only
error paths the Go code has on these operations and are out of scope, so
the embedded operations succeed deterministically. -/

structure TaskStore where
  tasks : List Task
  nextId : Int

/-- CreateTask embeds `DB.CreateTask`: build the task from the request with
status pending and timestamps now, compute the money cost, INSERT the row
(SQLite assigns the next rowid, returned through `LastInsertId`).  There is
no validation of any field. -/
def DB.CreateTask (s : TaskStore) (req : CreateTaskRequest) (now : Int) :
    Task × TaskStore :=
  let task0 : Task :=
    { id := s.nextId
      title := req.title
      description := req.description
      parentId := req.parentId
      estimatedDurationMins := req.estimatedDurationMins
      deadline := req.deadline
      priority := req.priority
      status := StatusPending
      tags := req.tags
      energyLevel := req.energyLevel
      difficulty := req.difficulty
      moneyCost := 0
      createdAt := now
      updatedAt := now
      completedAt := none
      prerequisites := [] }
  let task : Task := { task0 with moneyCost := task0.CalculateMoneyCost }
  (task, { tasks := s.tasks ++ [task], nextId := s.nextId + 1 })

/-- GetTask embeds the lookup of `DB.GetTask`: `QueryRow ... WHERE id = ?`
returns `sql.ErrNoRows` when no row matches, which `DB.GetTask` propagates;
`none` stands for that NotFound error.  (The follow-up prerequisite /
subtask loading reads other rows and is not modelled; no verified property
looks through it.) -/
def DB.GetTask (s : TaskStore) (id : Int) : Option Task :=
  s.tasks.find? (fun t => t.id = id)

/-- applyStatusUpdate embeds the row effect of the UPDATE statement in
`DB.UpdateTaskStatus`: every row matching the id gets the new status, the
recomputed completed_at (now iff the new status is done, SQL NULL
otherwise) and the new updated_at. -/
def applyStatusUpdate (id : Int) (status : TaskStatus) (now : Int)
    (t : Task) : Task :=
  if t.id = id then
    { t with
        status := status
        completedAt := if status = StatusDone then some now else none
        updatedAt := now }
  else t

/-- UpdateTaskStatus embeds `DB.UpdateTaskStatus` (identical in part_005,
part_006 and part_007): run the UPDATE and return nil error.  The number of
affected rows is never inspected, so a nonexistent id is not an error. -/
def DB.UpdateTaskStatus (s : TaskStore) (id : Int) (status : TaskStatus)
    (now : Int) : Except String TaskStore :=
  .ok { s with tasks := s.tasks.map (applyStatusUpdate id status now) }

lemma map_applyStatusUpdate_of_absent (l : List Task) (id : Int)
    (status : TaskStatus) (now : Int) (h : ∀ t ∈ l, t.id ≠ id) :
    l.map (applyStatusUpdate id status now) = l := by
  induction l with
  | nil => rfl
  | cons t ts ih =>
    have ht : t.id ≠ id := h t (List.mem_cons_self t ts)
    have hts : ∀ u ∈ ts, u.id ≠ id := fun u hu =>
      h u (List.mem_cons_of_mem t hu)
    simp only [List.map_cons, applyStatusUpdate, if_neg ht, ih hts]

/-- emptyTitleReq is a request with an empty title and a negative duration;
the spec says such input must be rejected. -/
def emptyTitleReq : CreateTaskRequest :=
  { title := "", description := "", parentId := none,
    estimatedDurationMins := -5, deadline := none, priority := 2,
    tags := [], energyLevel := 2, difficulty := 2 }

/-- Counterexample to C2: `DB.CreateTask` accepts an input whose title is
empty and whose estimated duration is negative, and inserts it — there is no
ValidationError path in the code. -/
theorem C2_createTask_counterexample :
    (DB.CreateTask { tasks := [], nextId := 1 } emptyTitleReq 0).2.tasks.length
      = 1
    ∧ (DB.CreateTask { tasks := [], nextId := 1 } emptyTitleReq 0).1.title = ""
    ∧ (DB.CreateTask { tasks := [], nextId := 1 }
        emptyTitleReq 0).1.estimatedDurationMins = -5
    ∧ (DB.CreateTask { tasks := [], nextId := 1 } emptyTitleReq 0).1.status
      = StatusPending :=
  ⟨rfl, rfl, rfl, rfl⟩

/-- Claim C2 as amended: `createTask` performs no validation — for every
input, including an empty title or a negative duration, it assigns the next
id, sets status Pending, computes the money cost via the Cost Model, and
inserts the task; it never fails with a ValidationError. -/
theorem C2_createTask_always_inserts :
    ∀ (s : TaskStore) (req : CreateTaskRequest) (now : Int),
      (DB.CreateTask s req now).1.id = s.nextId
      ∧ (DB.CreateTask s req now).1.status = StatusPending
      ∧ (DB.CreateTask s req now).1.moneyCost
          = Task.CalculateMoneyCost (DB.CreateTask s req now).1
      ∧ (DB.CreateTask s req now).2.tasks
          = s.tasks ++ [(DB.CreateTask s req now).1]
      ∧ (DB.CreateTask s req now).2.nextId = s.nextId + 1
      ∧ (DB.CreateTask s req now).1.title = req.title
      ∧ (DB.CreateTask s req now).1.estimatedDurationMins
          = req.estimatedDurationMins :=
  fun _s _req _now => ⟨rfl, rfl, rfl, rfl, rfl, rfl, rfl⟩

/-- Counterexample to C3: updating the status of an id that is not in the
store succeeds (`UPDATE` matches zero rows, `RowsAffected` is never
inspected) instead of failing with a NotFoundError. -/
theorem C3_setStatus_missing_id_counterexample :
    DB.UpdateTaskStatus { tasks := [], nextId := 1 } 42 StatusDone 0
      = .ok { tasks := [], nextId := 1 } :=
  rfl

/-- Claim C3 as amended: direct lookups by nonexistent id do fail (GetTask
propagates sql.ErrNoRows, modelled as `none`), but `setStatus` on a
nonexistent id does not fail: it returns success and leaves every row
unchanged. -/
theorem C3_missing_id_semantics :
    (∀ (s : TaskStore) (id : Int), (∀ t ∈ s.tasks, t.id ≠ id) →
      DB.GetTask s id = none)
    ∧ (∀ (s : TaskStore) (id : Int) (status : TaskStatus) (now : Int),
        (∀ t ∈ s.tasks, t.id ≠ id) →
        DB.UpdateTaskStatus s id status now = .ok s) := by
  constructor
  · intro s id h
    rw [DB.GetTask, List.find?_eq_none]
    intro t ht
    simpa using h t ht
  · intro s id status now h
    rw [DB.UpdateTaskStatus, map_applyStatusUpdate_of_absent _ _ _ _ h]

/-- Witness for the amended C3 on a concrete empty store. -/
theorem C3_missing_id_semantics_witness :
    DB.GetTask { tasks := [], nextId := 1 } 42 = none
    ∧ DB.UpdateTaskStatus { tasks := [], nextId := 1 } 42 StatusDone 5
        = .ok { tasks := [], nextId := 1 } :=
  ⟨C3_missing_id_semantics.1 { tasks := [], nextId := 1 } 42
      (by intro t ht; cases ht),
   C3_missing_id_semantics.2 { tasks := [], nextId := 1 } 42 StatusDone 5
      (by intro t ht; cases ht)⟩

/-- Claim C10: the status update unconditionally overwrites completed_at —
now exactly when the new status is done, SQL NULL for every other status —
so completing a task and then reopening it erases completedAt. -/
theorem C10_completedAt_overwritten :
    (∀ (id : Int) (status : TaskStatus) (now : Int) (t : Task), t.id = id →
      (applyStatusUpdate id status now t).status = status
      ∧ (applyStatusUpdate id status now t).completedAt
          = (if status = StatusDone then some now else none))
    ∧ (∀ (id now1 now2 : Int) (t : Task), t.id = id →
        (applyStatusUpdate id StatusPending now2
          (applyStatusUpdate id StatusDone now1 t)).completedAt = none)
    ∧ (∀ (s : TaskStore) (id : Int) (status : TaskStatus) (now : Int),
        DB.UpdateTaskStatus s id status now
          = .ok { s with
                    tasks := s.tasks.map (applyStatusUpdate id status now) }) := by
  refine ⟨?_, ?_, ?_⟩
  · intro id status now t ht
    exact ⟨by simp [applyStatusUpdate, ht], by simp [applyStatusUpdate, ht]⟩
  · intro id now1 now2 t ht
    simp [applyStatusUpdate, ht, StatusPending, StatusDone]
  · intro s id status now
    rfl

/-- Witness for C10: completing then reopening a concrete task erases its
completion time. -/
theorem C10_completedAt_overwritten_witness :
    (applyStatusUpdate 1 StatusDone 50 (mkTask 10 2 2 2)).completedAt
      = some 50
    ∧ (applyStatusUpdate 1 StatusPending 60
        (applyStatusUpdate 1 StatusDone 50 (mkTask 10 2 2 2))).completedAt
      = none :=
  ⟨by
    have h :=
      (C10_completedAt_overwritten.1 1 StatusDone 50 (mkTask 10 2 2 2) rfl).2
    simpa using h,
   C10_completedAt_overwritten.2.1 1 50 60 (mkTask 10 2 2 2) rfl⟩

/-! ## Query-all ordering (`DB.GetAllTasks`)

The query is `SELECT ... FROM tasks ORDER BY priority DESC, deadline ASC`.
SQLite's default NULL ordering places NULL before every non-NULL value in an
ASC sort key, so rows without a deadline come first within their priority
group.  The ORDER BY contract is: the result is a permutation of the rows,
pairwise nondecreasing in the comparator below; `List.insertionSort` is the
executable representative of such a sort. -/

/-- deadlineNullsFirstLE is the SQLite ASC order on the nullable deadline
column: NULL sorts before every value. -/
def deadlineNullsFirstLE : Option Int → Option Int → Prop
  | none, _ => True
  | some _, none => False
  | some x, some y => x ≤ y

instance : ∀ a b : Option Int, Decidable (deadlineNullsFirstLE a b)
  | none, none => isTrue trivial
  | none, some _ => isTrue trivial
  | some _, none => isFalse (fun h => h)
  | some x, some y => inferInstanceAs (Decidable (x ≤ y))

/-- sqliteTaskOrder is the row order of `ORDER BY priority DESC, deadline
ASC` under SQLite NULL semantics. -/
def sqliteTaskOrder (a b : Task) : Prop :=
  b.priority < a.priority
  ∨ (a.priority = b.priority ∧ deadlineNullsFirstLE a.deadline b.deadline)

instance : DecidableRel sqliteTaskOrder := fun a b =>
  inferInstanceAs (Decidable (_ ∨ _))

lemma deadlineNullsFirstLE_total (a b : Option Int) :
    deadlineNullsFirstLE a b ∨ deadlineNullsFirstLE b a := by
  rcases a with _ | x <;> rcases b with _ | y
  · exact Or.inl trivial
  · exact Or.inl trivial
  · exact Or.inr trivial
  · simp only [deadlineNullsFirstLE]
    omega

lemma deadlineNullsFirstLE_trans (a b c : Option Int)
    (hab : deadlineNullsFirstLE a b) (hbc : deadlineNullsFirstLE b c) :
    deadlineNullsFirstLE a c := by
  rcases a with _ | x <;> rcases b with _ | y <;> rcases c with _ | z <;>
    simp only [deadlineNullsFirstLE] at * <;> omega

instance : IsTotal Task sqliteTaskOrder := by
  constructor
  intro a b
  rcases lt_trichotomy a.priority b.priority with h | h | h
  · exact Or.inr (Or.inl h)
  · rcases deadlineNullsFirstLE_total a.deadline b.deadline with hd | hd
    · exact Or.inl (Or.inr ⟨h, hd⟩)
    · exact Or.inr (Or.inr ⟨h.symm, hd⟩)
  · exact Or.inl (Or.inl h)

instance : IsTrans Task sqliteTaskOrder := by
  constructor
  intro a b c hab hbc
  rcases hab with hab | ⟨hab, hdab⟩ <;> rcases hbc with hbc | ⟨hbc, hdbc⟩
  · exact Or.inl (hbc.trans hab)
  · exact Or.inl (hbc ▸ hab)
  · exact Or.inl (hab ▸ hbc)
  · exact Or.inr ⟨hab.trans hbc,
      deadlineNullsFirstLE_trans _ _ _ hdab hdbc⟩

/-- GetAllTasks embeds `DB.GetAllTasks`: all rows, ordered by the SQL
comparator. -/
def DB.GetAllTasks (s : TaskStore) : List Task :=
  List.insertionSort sqliteTaskOrder s.tasks

/-- specNoDeadlineLastOrder restates the ordering claimed by the spec
sentence (for the counterexample of C4): deadline ascending with tasks that
have NO deadline placed LAST within their priority group. -/
def specNoDeadlineLastOrder (a b : Task) : Prop :=
  b.priority < a.priority
  ∨ (a.priority = b.priority ∧
      match a.deadline, b.deadline with
      | _, none => True
      | none, some _ => False
      | some x, some y => x ≤ y)

instance : ∀ a b : Task, Decidable (specNoDeadlineLastOrder a b) := fun a b => by
  rw [specNoDeadlineLastOrder]
  rcases a.deadline with _ | x <;> rcases b.deadline with _ | y <;>
    exact inferInstanceAs (Decidable (_ ∨ _))

/-- taskWithDeadline is a priority-2 task with a deadline. -/
def taskWithDeadline : Task := { mkTask 10 2 2 2 with id := 1, deadline := some 100 }

/-- taskNoDeadline is a priority-2 task without a deadline. -/
def taskNoDeadline : Task := { mkTask 10 2 2 2 with id := 2, deadline := none }

/-- Counterexample to C4: with two equal-priority tasks, one with a deadline
and one without, the query returns the deadline-less task FIRST (SQLite
sorts NULL before non-NULL in an ASC key), so the result is not ordered as
the claim states (no-deadline last). -/
theorem C4_no_deadline_sorts_first_counterexample :
    DB.GetAllTasks { tasks := [taskWithDeadline, taskNoDeadline], nextId := 3 }
      = [taskNoDeadline, taskWithDeadline]
    ∧ ¬ List.Pairwise specNoDeadlineLastOrder
        (DB.GetAllTasks
          { tasks := [taskWithDeadline, taskNoDeadline], nextId := 3 }) := by
  have h : DB.GetAllTasks
      { tasks := [taskWithDeadline, taskNoDeadline], nextId := 3 }
      = [taskNoDeadline, taskWithDeadline] := by
    show List.insertionSort sqliteTaskOrder [taskWithDeadline, taskNoDeadline]
      = [taskNoDeadline, taskWithDeadline]
    have hno : ¬ sqliteTaskOrder taskWithDeadline taskNoDeadline := by
      rw [sqliteTaskOrder]
      simp [taskWithDeadline, taskNoDeadline, mkTask, deadlineNullsFirstLE]
    simp [List.insertionSort, List.orderedInsert, hno]
  refine ⟨h, ?_⟩
  rw [h]
  intro hp
  have h12 := List.rel_of_pairwise_cons hp (List.mem_cons_self _ _)
  rw [specNoDeadlineLastOrder] at h12
  rcases h12 with h12 | ⟨_, h12⟩
  · simp [taskNoDeadline, taskWithDeadline, mkTask] at h12
  · revert h12
    simp [taskNoDeadline, taskWithDeadline, mkTask]

/-- Claim C4 as amended: the query-all operation returns every stored task,
sorted by priority descending and, within equal priority, by deadline
ascending with tasks that have no deadline placed FIRST within their
priority group (SQLite sorts NULL before all values in an ASC key). -/
theorem C4_getAllTasks_sorted :
    ∀ s : TaskStore,
      (DB.GetAllTasks s).Perm s.tasks
      ∧ List.Pairwise sqliteTaskOrder (DB.GetAllTasks s) :=
  fun s =>
    ⟨List.perm_insertionSort sqliteTaskOrder s.tasks,
     List.sorted_insertionSort sqliteTaskOrder s.tasks⟩

/-! ## Event calendar (src/internal/calendar/calendar.go)

Instants are `Int` minutes since the Go zero time (January 1, year 1,
00:00) in a fixed-offset location, so `time.Time.IsZero` is `t = 0` and
`AddDate(0, 0, n)` is `t + n*1440`.  `AddDate` with month/year components
goes through Go's civil-calendar normalisation, embedded below with the
standard days-from-civil / civil-from-days conversions. -/

/-- RecurrenceType mirrors the calendar's `RecurrenceType` string constants. -/
inductive RecurrenceType where
  | none
  | daily
  | weekly
  | monthly
  | yearly
  | custom
deriving Repr, DecidableEq

/-- RecurrenceRule mirrors `calendar.RecurrenceRule`; weekdays are Go
`time.Weekday` ordinals. -/
structure RecurrenceRule where
  type : RecurrenceType
  interval : Int
  endDate : Option Int
  count : Int
  weekDays : List Nat
  monthDay : Int
deriving Repr, DecidableEq

/-- Event mirrors `calendar.Event`. -/
structure Event where
  id : String
  title : String
  description : String
  location : String
  startTime : Int
  endTime : Int
  allDay : Bool
  recurrence : RecurrenceRule
  createdAt : Int
  updatedAt : Int
  tags : List String
deriving Repr, DecidableEq

/-- Calendar embeds the `map[string]*Event` collection as its list of
values; every operation proved about is insensitive to iteration order. -/
abbrev Calendar := List Event

/-- CalendarError names the error returns of calendar.go (the Go code uses
`fmt.Errorf` messages; only the identity of the error matters here). -/
inductive CalendarError where
  | invalidEvent (msg : String)
  | conflict
  | notFound (id : String)
  | unsupportedRecurrence
  | recurrenceLimit
deriving Repr, DecidableEq

/-- daysFromCivil converts a civil date (month pre-normalised to 1..12, day
unconstrained, matching Go's `time.Date` behaviour) to days since the Go
zero date, via the standard Gregorian conversion. -/
def daysFromCivil (y m d : Int) : Int :=
  let y2 := if m ≤ 2 then y - 1 else y
  let era := y2.fdiv 400
  let yoe := y2 - era * 400
  let doy := (153 * (if 2 < m then m - 3 else m + 9) + 2) / 5 + d - 1
  let doe := yoe * 365 + yoe / 4 - yoe / 100 + doy
  era * 146097 + doe - 306

/-- civilFromDays is the inverse Gregorian conversion (for in-range days it
returns the calendar date of the instant). -/
def civilFromDays (z : Int) : Int × Int × Int :=
  let z2 := z + 306
  let era := z2.fdiv 146097
  let doe := z2 - era * 146097
  let yoe := (doe - doe / 1460 + doe / 36524 - doe / 146096) / 365
  let y := yoe + era * 400
  let doy := doe - (365 * yoe + yoe / 4 - yoe / 100)
  let mp := (5 * doy + 2) / 153
  let d := doy - (153 * mp + 2) / 5 + 1
  let m := if mp < 10 then mp + 3 else mp - 9
  (if m ≤ 2 then y + 1 else y, m, d)

/-- addDays embeds `t.AddDate(0, 0, n)`: in a fixed-offset location adding n
calendar days is adding n*1440 minutes. -/
def addDays (t n : Int) : Int :=
  t + n * 1440

/-- addMonths embeds `t.AddDate(0, n, 0)`: split the instant into civil date
and clock, add n months, renormalise the month into 1..12 with year carry
(Go's `norm`), and let the day overflow roll into the next month exactly as
`time.Date` does. -/
def addMonths (t n : Int) : Int :=
  let dayNum := t.fdiv 1440
  let mins := t.emod 1440
  let c := civilFromDays dayNum
  let m2 := c.2.1 + n
  let y2 := c.1 + (m2 - 1).fdiv 12
  let m3 := (m2 - 1).emod 12 + 1
  daysFromCivil y2 m3 c.2.2 * 1440 + mins

/-- addYears embeds `t.AddDate(n, 0, 0)`. -/
def addYears (t n : Int) : Int :=
  let dayNum := t.fdiv 1440
  let mins := t.emod 1440
  let c := civilFromDays dayNum
  daysFromCivil (c.1 + n) c.2.1 c.2.2 * 1440 + mins

/-- validateRecurrenceRule embeds `Calendar.validateRecurrenceRule`; `some
msg` is the returned error.  The Go switch's default branch (reached for the
string "none", the only inhabitant outside the four advanceable types and
custom) rejects the type. -/
def validateRecurrenceRule (rule : RecurrenceRule) : Option String :=
  if rule.interval ≤ 0 then some "recurrence interval must be positive"
  else if rule.type = RecurrenceType.custom ∧ rule.weekDays = []
      ∧ rule.monthDay = 0 then
    some "custom recurrence requires weekdays or month day specification"
  else if rule.type = RecurrenceType.none then
    some "invalid recurrence type"
  else if rule.endDate.isSome ∧ 0 < rule.count then
    some "recurrence cannot have both end date and count"
  else if rule.monthDay < 0 ∨ 31 < rule.monthDay then
    some "invalid month day"
  else none

/-- validateEvent embeds `Calendar.validateEvent`. -/
def validateEvent (event : Event) : Option String :=
  if event.title = "" then some "event title is required"
  else if event.startTime = 0 then some "event start time is required"
  else if event.endTime = 0 then some "event end time is required"
  else if event.endTime < event.startTime then
    some "event end time must be after start time"
  else if event.recurrence.type ≠ RecurrenceType.none then
    validateRecurrenceRule event.recurrence
  else none

/-- eventsOverlap embeds `Calendar.eventsOverlap`: the half-open overlap
test. -/
def eventsOverlap (event1 event2 : Event) : Bool :=
  decide (event1.startTime < event2.endTime)
    && decide (event2.startTime < event1.endTime)

/-- FindConflicts embeds `Calendar.FindConflicts`: every stored event other
than the argument itself (by ID) whose interval overlaps. -/
def FindConflicts (c : Calendar) (event : Event) : List Event :=
  c.filter (fun existing => existing.id != event.id
    && eventsOverlap event existing)

/-- upsert models the map assignment `c.events[event.ID] = event`. -/
def upsert (c : Calendar) (event : Event) : Calendar :=
  c.filter (fun e => e.id != event.id) ++ [event]

/-- AddEvent embeds `Calendar.AddEvent` (the nil-pointer guard has no
counterpart for a Lean value; `freshId` stands for the generated UUID used
when the incoming ID is empty). -/
def AddEvent (c : Calendar) (event : Event) (freshId : String) (now : Int) :
    Except CalendarError Calendar :=
  let ev := if event.id = "" then { event with id := freshId } else event
  match validateEvent ev with
  | some msg => .error (.invalidEvent msg)
  | none =>
    let ev := { ev with
        createdAt := if ev.createdAt = 0 then now else ev.createdAt
        updatedAt := now }
    if 0 < (FindConflicts c ev).length then .error .conflict
    else .ok (upsert c ev)

/-- advanceStep embeds the `switch event.Recurrence.Type` advancement in
`GenerateRecurringEvents`; `none` is the default branch (custom or the
"none" string, neither advanced by the algorithm). -/
def advanceStep (rule : RecurrenceRule) (current : Int) : Option Int :=
  match rule.type with
  | RecurrenceType.daily => some (addDays current rule.interval)
  | RecurrenceType.weekly => some (addDays current (7 * rule.interval))
  | RecurrenceType.monthly => some (addMonths current rule.interval)
  | RecurrenceType.yearly => some (addYears current rule.interval)
  | _ => none

/-- pastRuleEnd embeds `event.Recurrence.EndDate != nil &&
current.After(*event.Recurrence.EndDate)`. -/
def pastRuleEnd (rule : RecurrenceRule) (current : Int) : Bool :=
  match rule.endDate with
  | some ed => decide (ed < current)
  | none => false

/-- occurrenceInstance embeds the shallow copy made inside the loop: same
event with derived ID `originalID-count` and the interval shifted to
`current` preserving the original duration. -/
def occurrenceInstance (event : Event) (current : Int) (count : Nat) :
    Event :=
  { event with
      id := event.id ++ "-" ++ toString count
      startTime := current
      endTime := current + (event.endTime - event.startTime) }

/-- genAux embeds the `for current.Before(endDate) || current.Equal(endDate)`
loop of `Calendar.GenerateRecurringEvents`.  `fuel` is only a termination
measure: the loop increments `count` every pass and errors as soon as
`count` exceeds 1000, so with the initial fuel of 1002 the fuel-0 branch is
unreachable (its value mirrors the cap error it shadows). -/
def genAux (event : Event) (windowStart windowEnd : Int) :
    Nat → Int → Nat → List Event → Except CalendarError (List Event)
  | 0, _, _, _ => .error .recurrenceLimit
  | fuel + 1, current, count, instances =>
    if current ≤ windowEnd then
      if pastRuleEnd event.recurrence current then .ok instances
      else if 0 < event.recurrence.count
          ∧ event.recurrence.count ≤ (count : Int) then .ok instances
      else
        let instances2 :=
          if windowStart ≤ current ∧ current < windowEnd then
            instances ++ [occurrenceInstance event current count]
          else instances
        match advanceStep event.recurrence current with
        | none => .error .unsupportedRecurrence
        | some next =>
          if 1000 < count + 1 then .error .recurrenceLimit
          else genAux event windowStart windowEnd fuel next (count + 1)
            instances2
    else .ok instances

/-- GenerateRecurringEvents embeds `Calendar.GenerateRecurringEvents`: a
non-recurring event is returned as its own single instance, otherwise the
expansion loop runs from the event's start time. -/
def GenerateRecurringEvents (event : Event) (startDate endDate : Int) :
    Except CalendarError (List Event) :=
  if event.recurrence.type = RecurrenceType.none then .ok [event]
  else genAux event startDate endDate 1002 event.startTime 0 []

lemma genAux_succ (event : Event) (ws we : Int) (fuel : Nat) (current : Int)
    (count : Nat) (instances : List Event) :
    genAux event ws we (fuel + 1) current count instances
    = if current ≤ we then
        if pastRuleEnd event.recurrence current then .ok instances
        else if 0 < event.recurrence.count
            ∧ event.recurrence.count ≤ (count : Int) then .ok instances
        else
          let instances2 :=
            if ws ≤ current ∧ current < we then
              instances ++ [occurrenceInstance event current count]
            else instances
          match advanceStep event.recurrence current with
          | none => .error .unsupportedRecurrence
          | some next =>
            if 1000 < count + 1 then .error .recurrenceLimit
            else genAux event ws we fuel next (count + 1) instances2
      else .ok instances :=
  rfl

lemma genAux_continue (event : Event) (ws we : Int) (fuel : Nat)
    (current : Int) (count : Nat) (instances : List Event) (next : Int)
    (hcur : current ≤ we)
    (hpast : pastRuleEnd event.recurrence current = false)
    (hcount : ¬(0 < event.recurrence.count
      ∧ event.recurrence.count ≤ (count : Int)))
    (hemit : ws ≤ current ∧ current < we)
    (hadv : advanceStep event.recurrence current = some next)
    (hcap : ¬(1000 < count + 1)) :
    genAux event ws we (fuel + 1) current count instances
      = genAux event ws we fuel next (count + 1)
          (instances ++ [occurrenceInstance event current count]) := by
  rw [genAux_succ, if_pos hcur, hpast]
  rw [if_neg (by simp), if_neg hcount, if_pos hemit, hadv]
  show (if 1000 < count + 1
      then (Except.error CalendarError.recurrenceLimit :
        Except CalendarError (List Event))
      else genAux event ws we fuel next (count + 1)
        (instances ++ [occurrenceInstance event current count])) = _
  rw [if_neg hcap]

lemma genAux_cap_hit (event : Event) (ws we : Int) (fuel : Nat)
    (current : Int) (count : Nat) (instances : List Event) (next : Int)
    (hcur : current ≤ we)
    (hpast : pastRuleEnd event.recurrence current = false)
    (hcount : ¬(0 < event.recurrence.count
      ∧ event.recurrence.count ≤ (count : Int)))
    (hadv : advanceStep event.recurrence current = some next)
    (hcap : 1000 < count + 1) :
    genAux event ws we (fuel + 1) current count instances
      = .error CalendarError.recurrenceLimit := by
  rw [genAux_succ, if_pos hcur, hpast]
  rw [if_neg (by simp), if_neg hcount]
  by_cases hemit : ws ≤ current ∧ current < we
  · rw [if_pos hemit, hadv]
    show (if 1000 < count + 1
        then (Except.error CalendarError.recurrenceLimit :
          Except CalendarError (List Event))
        else genAux event ws we fuel next (count + 1)
          (instances ++ [occurrenceInstance event current count])) = _
    rw [if_pos hcap]
  · rw [if_neg hemit, hadv]
    show (if 1000 < count + 1
        then (Except.error CalendarError.recurrenceLimit :
          Except CalendarError (List Event))
        else genAux event ws we fuel next (count + 1) instances) = _
    rw [if_pos hcap]

lemma genAux_continue_any (event : Event) (ws we : Int) (fuel : Nat)
    (current : Int) (count : Nat) (instances : List Event) (next : Int)
    (hcur : current ≤ we)
    (hpast : pastRuleEnd event.recurrence current = false)
    (hcount : ¬(0 < event.recurrence.count
      ∧ event.recurrence.count ≤ (count : Int)))
    (hadv : advanceStep event.recurrence current = some next)
    (hcap : ¬(1000 < count + 1)) :
    genAux event ws we (fuel + 1) current count instances
      = genAux event ws we fuel next (count + 1)
          (if ws ≤ current ∧ current < we then
            instances ++ [occurrenceInstance event current count]
          else instances) := by
  by_cases hemit : ws ≤ current ∧ current < we
  · rw [if_pos hemit]
    exact genAux_continue event ws we fuel current count instances next
      hcur hpast hcount hemit hadv hcap
  · rw [genAux_succ, if_pos hcur, hpast]
    rw [if_neg (by simp), if_neg hcount, if_neg hemit, hadv]
    show (if 1000 < count + 1
        then (Except.error CalendarError.recurrenceLimit :
          Except CalendarError (List Event))
        else genAux event ws we fuel next (count + 1) instances) = _
    rw [if_neg hcap]

lemma genAux_daily_cap (event : Event) (ws we : Int)
    (htype : event.recurrence.type = RecurrenceType.daily)
    (hintv : event.recurrence.interval = 1)
    (hcnt : event.recurrence.count = 0 ∨ 1000 < event.recurrence.count) :
    ∀ n : Nat, n ≤ 1000 → ∀ (current : Int) (acc : List Event),
      current + 1440 * (n : Int) ≤ we →
      (∀ i : Nat, i ≤ n →
        (match event.recurrence.endDate with
         | none => True
         | some ed => current + 1440 * (i : Int) ≤ ed)) →
      genAux event ws we (n + 2) current (1000 - n) acc
        = .error CalendarError.recurrenceLimit := by
  have hadv : ∀ cur : Int,
      advanceStep event.recurrence cur = some (cur + 1440) := by
    intro cur
    simp [advanceStep, htype, hintv, addDays]
  intro n
  induction n with
  | zero =>
    intro _ current acc hwe hend
    have hcur : current ≤ we := by omega
    have hpast : pastRuleEnd event.recurrence current = false := by
      rcases hed : event.recurrence.endDate with _ | ed
      · simp [pastRuleEnd, hed]
      · have h0 := hend 0 (Nat.zero_le _)
        simp only [hed] at h0
        simp only [pastRuleEnd, hed, decide_eq_false_iff_not]
        omega
    have hcount : ¬(0 < event.recurrence.count
        ∧ event.recurrence.count ≤ ((1000 - 0 : Nat) : Int)) := by
      rcases hcnt with h | h
      · rw [h]; omega
      · omega
    exact genAux_cap_hit event ws we 1 current (1000 - 0) acc
      (current + 1440) hcur hpast hcount (hadv current) (by omega)
  | succ n ih =>
    intro hn current acc hwe hend
    have hcur : current ≤ we := by omega
    have hpast : pastRuleEnd event.recurrence current = false := by
      rcases hed : event.recurrence.endDate with _ | ed
      · simp [pastRuleEnd, hed]
      · have h0 := hend 0 (Nat.zero_le _)
        simp only [hed] at h0
        simp only [pastRuleEnd, hed, decide_eq_false_iff_not]
        omega
    have hcount : ¬(0 < event.recurrence.count
        ∧ event.recurrence.count ≤ ((1000 - (n + 1) : Nat) : Int)) := by
      rcases hcnt with h | h
      · rw [h]; omega
      · omega
    have hstep := genAux_continue_any event ws we (n + 2) current
      (1000 - (n + 1)) acc (current + 1440) hcur hpast hcount
      (hadv current) (by omega)
    rw [show (n + 1 + 2 : Nat) = (n + 2) + 1 from rfl, hstep,
      show (1000 - (n + 1) + 1 : Nat) = 1000 - n by omega]
    apply ih (by omega)
    · push_cast at hwe ⊢
      omega
    · intro i hi
      rcases hed : event.recurrence.endDate with _ | ed
      · simp
      · have h1 := hend (i + 1) (by omega)
        simp only [hed] at h1 ⊢
        push_cast at h1 ⊢
        omega

/-- Claim C6: generation always fails with the RecurrenceLimit error once
the expansion loop exceeds 1000 iterations, whether no terminator, a count
terminator, or an end-date terminator is set; in particular a Daily
interval-1 rule with no terminator queried over a window wider than 1000
days errors instead of returning instances. -/
theorem C6_recurrence_limit :
    (∀ (ev : Event) (s e : Int),
      ev.recurrence.type = RecurrenceType.daily →
      ev.recurrence.interval = 1 →
      ev.recurrence.endDate = none →
      ev.recurrence.count = 0 →
      ev.startTime = s →
      1000 * 1440 < e - s →
      GenerateRecurringEvents ev s e = .error CalendarError.recurrenceLimit)
    ∧ (∀ (ev : Event) (s e : Int),
        ev.recurrence.type = RecurrenceType.daily →
        ev.recurrence.interval = 1 →
        ev.recurrence.endDate = none →
        1000 < ev.recurrence.count →
        ev.startTime = s →
        1000 * 1440 < e - s →
        GenerateRecurringEvents ev s e = .error CalendarError.recurrenceLimit)
    ∧ (∀ (ev : Event) (s e d : Int),
        ev.recurrence.type = RecurrenceType.daily →
        ev.recurrence.interval = 1 →
        ev.recurrence.endDate = some d →
        ev.recurrence.count = 0 →
        ev.startTime = s →
        1000 * 1440 < e - s →
        s + 1000 * 1440 ≤ d →
        GenerateRecurringEvents ev s e
          = .error CalendarError.recurrenceLimit) := by
  refine ⟨?_, ?_, ?_⟩
  · intro ev s e ht hi he hc hs hwide
    rw [GenerateRecurringEvents, if_neg (by simp [ht]), hs]
    exact genAux_daily_cap ev s e ht hi (Or.inl hc) 1000 (le_refl _) s []
      (by push_cast; omega) (by intro i _; simp [he])
  · intro ev s e ht hi he hc hs hwide
    rw [GenerateRecurringEvents, if_neg (by simp [ht]), hs]
    exact genAux_daily_cap ev s e ht hi (Or.inr hc) 1000 (le_refl _) s []
      (by push_cast; omega) (by intro i _; simp [he])
  · intro ev s e d ht hi he hc hs hwide hfar
    rw [GenerateRecurringEvents, if_neg (by simp [ht]), hs]
    refine genAux_daily_cap ev s e ht hi (Or.inl hc) 1000 (le_refl _) s []
      (by push_cast; omega) ?_
    intro i hi
    simp only [he]
    have : (i : Int) ≤ 1000 := by exact_mod_cast hi
    omega

/-- dailyNoEndEvent is a concrete Daily/interval-1 event with no
terminator. -/
def dailyNoEndEvent : Event :=
  { id := "d", title := "Daily", description := "", location := "",
    startTime := 600, endTime := 660, allDay := false,
    recurrence :=
      { type := RecurrenceType.daily, interval := 1, endDate := none,
        count := 0, weekDays := [], monthDay := 0 },
    createdAt := 1, updatedAt := 1, tags := [] }

/-- Witness for C6: a window 1000 days and one minute wide hits the cap. -/
theorem C6_recurrence_limit_witness :
    GenerateRecurringEvents dailyNoEndEvent 600 (600 + 1440001)
      = .error CalendarError.recurrenceLimit :=
  C6_recurrence_limit.1 dailyNoEndEvent 600 (600 + 1440001)
    rfl rfl rfl rfl rfl (by norm_num)

lemma genAux_stop (event : Event) (ws we : Int) (fuel : Nat) (current : Int)
    (count : Nat) (instances : List Event)
    (hpast : pastRuleEnd event.recurrence current = false)
    (hcount : 0 < event.recurrence.count
      ∧ event.recurrence.count ≤ (count : Int)) :
    genAux event ws we (fuel + 1) current count instances = .ok instances := by
  rw [genAux_succ]
  by_cases hcur : current ≤ we
  · rw [if_pos hcur, hpast, if_neg (by simp), if_pos hcount]
  · rw [if_neg hcur]

/-- Claim C7: a Weekly rule with interval 1, count 3 and no end date, over a
window containing all occurrences, yields exactly 3 instances spaced 7 days
(10080 minutes) apart, each a copy of the original with derived ID
`originalID-index` and with the end time shifted to preserve the original
duration. -/
theorem C7_weekly_count3 :
    (∀ (ev : Event) (ws we : Int),
      ev.recurrence.type = RecurrenceType.weekly →
      ev.recurrence.interval = 1 →
      ev.recurrence.endDate = none →
      ev.recurrence.count = 3 →
      ws ≤ ev.startTime →
      ev.startTime + 20160 < we →
      GenerateRecurringEvents ev ws we
        = .ok [occurrenceInstance ev ev.startTime 0,
               occurrenceInstance ev (ev.startTime + 10080) 1,
               occurrenceInstance ev (ev.startTime + 20160) 2])
    ∧ (∀ (ev : Event) (cur : Int) (k : Nat),
        (occurrenceInstance ev cur k).id = ev.id ++ "-" ++ toString k
        ∧ (occurrenceInstance ev cur k).startTime = cur
        ∧ (occurrenceInstance ev cur k).endTime
            - (occurrenceInstance ev cur k).startTime
          = ev.endTime - ev.startTime) := by
  constructor
  · intro ev ws we ht hi he hc hws hwe
    have hadv : ∀ cur : Int,
        advanceStep ev.recurrence cur = some (cur + 10080) := by
      intro cur
      simp [advanceStep, ht, hi, addDays]
    have hpast : ∀ cur : Int, pastRuleEnd ev.recurrence cur = false := by
      intro cur
      simp [pastRuleEnd, he]
    have hadv1 : advanceStep ev.recurrence (ev.startTime + 10080)
        = some (ev.startTime + 20160) := by
      rw [hadv]
      simp only [Option.some.injEq]
      ring
    have hadv2 : advanceStep ev.recurrence (ev.startTime + 20160)
        = some (ev.startTime + 30240) := by
      rw [hadv]
      simp only [Option.some.injEq]
      ring
    have e1 : genAux ev ws we 1002 ev.startTime 0 []
        = genAux ev ws we 1001 (ev.startTime + 10080) 1
            [occurrenceInstance ev ev.startTime 0] := by
      have h := genAux_continue ev ws we 1001 ev.startTime 0 []
        (ev.startTime + 10080) (by omega) (hpast _)
        (by rw [hc]; omega) ⟨hws, by omega⟩ (hadv _) (by omega)
      simpa using h
    have e2 : genAux ev ws we 1001 (ev.startTime + 10080) 1
          [occurrenceInstance ev ev.startTime 0]
        = genAux ev ws we 1000 (ev.startTime + 20160) 2
            [occurrenceInstance ev ev.startTime 0,
             occurrenceInstance ev (ev.startTime + 10080) 1] := by
      have h := genAux_continue ev ws we 1000 (ev.startTime + 10080) 1
        [occurrenceInstance ev ev.startTime 0]
        (ev.startTime + 20160) (by omega) (hpast _)
        (by rw [hc]; omega) ⟨by omega, by omega⟩ hadv1 (by omega)
      simpa using h
    have e3 : genAux ev ws we 1000 (ev.startTime + 20160) 2
          [occurrenceInstance ev ev.startTime 0,
           occurrenceInstance ev (ev.startTime + 10080) 1]
        = genAux ev ws we 999 (ev.startTime + 30240) 3
            [occurrenceInstance ev ev.startTime 0,
             occurrenceInstance ev (ev.startTime + 10080) 1,
             occurrenceInstance ev (ev.startTime + 20160) 2] := by
      have h := genAux_continue ev ws we 999 (ev.startTime + 20160) 2
        [occurrenceInstance ev ev.startTime 0,
         occurrenceInstance ev (ev.startTime + 10080) 1]
        (ev.startTime + 30240) (by omega) (hpast _)
        (by rw [hc]; omega) ⟨by omega, by omega⟩ hadv2 (by omega)
      simpa using h
    have e4 : genAux ev ws we 999 (ev.startTime + 30240) 3
          [occurrenceInstance ev ev.startTime 0,
           occurrenceInstance ev (ev.startTime + 10080) 1,
           occurrenceInstance ev (ev.startTime + 20160) 2]
        = .ok [occurrenceInstance ev ev.startTime 0,
               occurrenceInstance ev (ev.startTime + 10080) 1,
               occurrenceInstance ev (ev.startTime + 20160) 2] := by
      have h := genAux_stop ev ws we 998 (ev.startTime + 30240) 3
        [occurrenceInstance ev ev.startTime 0,
         occurrenceInstance ev (ev.startTime + 10080) 1,
         occurrenceInstance ev (ev.startTime + 20160) 2]
        (hpast _) (by rw [hc]; omega)
      simpa using h
    rw [GenerateRecurringEvents, if_neg (by simp [ht]), e1, e2, e3, e4]
  · intro ev cur k
    exact ⟨rfl, rfl, by simp [occurrenceInstance]⟩

/-- weeklyCount3Event is a concrete Weekly/interval-1/count-3 event. -/
def weeklyCount3Event : Event :=
  { id := "w", title := "Weekly", description := "", location := "",
    startTime := 600, endTime := 660, allDay := false,
    recurrence :=
      { type := RecurrenceType.weekly, interval := 1, endDate := none,
        count := 3, weekDays := [], monthDay := 0 },
    createdAt := 1, updatedAt := 1, tags := [] }

/-- Witness for C7 on a concrete weekly event and window. -/
theorem C7_weekly_count3_witness :
    GenerateRecurringEvents weeklyCount3Event 0 30000
      = .ok [occurrenceInstance weeklyCount3Event 600 0,
             occurrenceInstance weeklyCount3Event (600 + 10080) 1,
             occurrenceInstance weeklyCount3Event (600 + 20160) 2] :=
  C7_weekly_count3.1 weeklyCount3Event 0 30000 rfl rfl rfl rfl
    (by norm_num [weeklyCount3Event]) (by norm_num [weeklyCount3Event])

/-- noRecurrence is the zero-value recurrence rule of a plain event. -/
def noRecurrence : RecurrenceRule :=
  { type := RecurrenceType.none, interval := 0, endDate := none,
    count := 0, weekDays := [], monthDay := 0 }

/-- ev10to11 is a concrete event on [10:00, 11:00) (minutes 600-660). -/
def ev10to11 : Event :=
  { id := "a", title := "A", description := "", location := "",
    startTime := 600, endTime := 660, allDay := false,
    recurrence := noRecurrence, createdAt := 1, updatedAt := 1, tags := [] }

/-- ev11to12 is a concrete event on [11:00, 12:00) (minutes 660-720),
back-to-back with ev10to11. -/
def ev11to12 : Event :=
  { id := "b", title := "B", description := "", location := "",
    startTime := 660, endTime := 720, allDay := false,
    recurrence := noRecurrence, createdAt := 1, updatedAt := 1, tags := [] }

/-- ev1030to1130 is a concrete event on [10:30, 11:30) (minutes 630-690),
overlapping ev10to11. -/
def ev1030to1130 : Event :=
  { id := "c", title := "C", description := "", location := "",
    startTime := 630, endTime := 690, allDay := false,
    recurrence := noRecurrence, createdAt := 1, updatedAt := 1, tags := [] }

/-- Counterexample to C5: an event failing validation (empty title) is
rejected by addEvent although no stored event overlaps it (the store is
empty), so "fails iff some stored event overlaps" is false. -/
theorem C5_addEvent_fails_without_conflict_counterexample :
    AddEvent [] { ev10to11 with title := "" } "fresh" 5
      = .error (CalendarError.invalidEvent "event title is required")
    ∧ FindConflicts [] { ev10to11 with title := "" } = [] :=
  ⟨rfl, rfl⟩

/-- Claim C5 as amended: for an event that passes validation (after ID
generation), addEvent fails — inserting nothing — iff some stored event with
a different ID overlaps it under the half-open test `a.start < b.end &&
b.start < a.end`; boundary-touching events do not conflict while genuinely
overlapping ones do. -/
theorem C5_addEvent_conflict_iff :
    (∀ (c : Calendar) (event : Event) (freshId : String) (now : Int),
      validateEvent
          (if event.id = "" then { event with id := freshId } else event)
        = none →
      ((∃ err, AddEvent c event freshId now = .error err)
        ↔ ∃ e ∈ c,
            e.id ≠ (if event.id = ""
              then { event with id := freshId } else event).id
            ∧ eventsOverlap
                (if event.id = "" then { event with id := freshId }
                 else event) e = true))
    ∧ eventsOverlap ev10to11 ev11to12 = false
    ∧ eventsOverlap ev10to11 ev1030to1130 = true := by
  refine ⟨?_, by decide, by decide⟩
  intro c event freshId now hvalid
  rw [AddEvent]
  set ev := if event.id = "" then { event with id := freshId } else event
    with hev
  rw [hvalid]
  set ev2 : Event := { ev with
      createdAt := if ev.createdAt = 0 then now else ev.createdAt
      updatedAt := now } with hev2
  have hid : ev2.id = ev.id := rfl
  have hov : ∀ e, eventsOverlap ev2 e = eventsOverlap ev e := fun _ => rfl
  constructor
  · rintro ⟨err, herr⟩
    by_cases hlen : 0 < (FindConflicts c ev2).length
    · obtain ⟨e, he⟩ := List.exists_mem_of_length_pos hlen
      rw [FindConflicts, List.mem_filter] at he
      refine ⟨e, he.1, ?_, ?_⟩
      · have := he.2
        rw [Bool.and_eq_true, bne_iff_ne] at this
        exact fun h => this.1 (h.trans hid.symm)
      · have := he.2
        rw [Bool.and_eq_true] at this
        rw [← hov e]
        exact this.2
    · rw [if_neg hlen] at herr
      cases herr
  · rintro ⟨e, hec, hene, heov⟩
    refine ⟨CalendarError.conflict, ?_⟩
    have hmem : e ∈ FindConflicts c ev2 := by
      rw [FindConflicts, List.mem_filter]
      refine ⟨hec, ?_⟩
      rw [Bool.and_eq_true, bne_iff_ne]
      exact ⟨fun h => hene (h.trans hid), by rw [hov e]; exact heov⟩
    rw [if_pos (List.length_pos_of_mem hmem)]

/-- Witness for C5: adding an overlapping event to a one-event calendar
fails, through the amended equivalence. -/
theorem C5_addEvent_conflict_iff_witness :
    ∃ err, AddEvent [ev10to11] ev1030to1130 "fresh" 9 = .error err :=
  (C5_addEvent_conflict_iff.1 [ev10to11] ev1030to1130 "fresh" 9
      (by decide)).mpr
    ⟨ev10to11, by simp, by decide, by decide⟩

end Oppgaave
